import Mathlib

/-!
Shallow embedding of the kafka-ui repository's consumer-group lag-accounting,
stubborn-group removal, and message-window tracking logic, together with
theorems settling the frozen claims about it.

Sources embedded:
* src/src/app/api/kafka/topic-metrics/route.ts (GET handler: lag computation)
* src/src/app/api/kafka/consumer-groups/route.ts (forceRemoveGroup)
* src/src/app/api/kafka/messages/route.ts (POST handler: poll filtering,
  seek-offset computation, response sorting/truncation)
* src/src/components/topics/TopicMessages.tsx (client-side message buffer)

External kafkajs calls (connect, fetchTopicOffsets, fetchOffsets,
describeGroups, deleteGroups, resetOffsets, disconnect, consumer operations)
are modelled as oracle inputs: each fallible call's outcome is a parameter,
and the embedding reproduces the source's control flow over those outcomes.
Int stands for the JavaScript number/BigInt offset values (the source parses
offset strings with parseInt or BigInt; we use exact integers).
-/

namespace KafkaUI

/-! ## Topic metrics route (src/src/app/api/kafka/topic-metrics/route.ts)

Data shapes of the kafkajs results the GET handler consumes. -/

/-- One element of admin.fetchTopicOffsets: partition number with low/high
watermark offsets (strings in the source, parsed with parseInt). -/
structure PartitionBounds where
  partition : Nat
  low : Int
  high : Int
deriving DecidableEq, Repr

/-- One partition entry of admin.fetchOffsets for a group: the committed
offset, with -1 as the "never committed" sentinel (string '-1' in source). -/
structure PartitionOffsetData where
  partition : Nat
  offset : Int
deriving DecidableEq, Repr

/-- One topic entry of admin.fetchOffsets for a group. -/
structure TopicOffsetData where
  topic : String
  partitions : List PartitionOffsetData
deriving DecidableEq, Repr

/-- Entry of the consumerGroupLags array built by the route. -/
structure GroupLag where
  groupId : String
  lag : Int
deriving DecidableEq, Repr

/-- The metrics object returned by the route. -/
structure TopicMetrics where
  totalMessages : Int
  lag : Int
  consumerGroupLags : List GroupLag
deriving DecidableEq, Repr

/-- Lines 40-45: totalMessages accumulated with += (high - low) over the
fetched topic offsets. -/
def totalMessagesOf (bounds : List PartitionBounds) : Int :=
  bounds.foldl (fun acc p => acc + (p.high - p.low)) 0

/-- Accumulator of the per-partition loop at lines 73-92: groupLag and the
isConsumingTopic flag. -/
structure GroupScan where
  lag : Int
  isConsuming : Bool
deriving DecidableEq, Repr

/-- Body of the per-partition loop (lines 76-92): skip sentinel offsets,
look the partition up in the topic offsets, and add max(0, high - committed)
when a matching partition exists, marking the group as consuming. -/
def scanPartition (bounds : List PartitionBounds) (st : GroupScan)
    (pd : PartitionOffsetData) : GroupScan :=
  if pd.offset = -1 then st
  else
    match bounds.find? (fun b => b.partition = pd.partition) with
    | some b => { lag := st.lag + max 0 (b.high - pd.offset), isConsuming := true }
    | none => st

/-- Lines 67-100: find this group's data for the topic, run the partition
scan, and produce a GroupLag entry only when isConsumingTopic ended true. -/
def computeGroupEntry (topicName : String) (bounds : List PartitionBounds)
    (groupId : String) (offsets : List TopicOffsetData) : Option GroupLag :=
  match offsets.find? (fun od => od.topic = topicName) with
  | none => none
  | some od =>
    let st := od.partitions.foldl (scanPartition bounds) ⟨0, false⟩
    if st.isConsuming then some ⟨groupId, st.lag⟩ else none

/-- One iteration of the per-group loop (lines 55-108): groups with a falsy
(empty) groupId are skipped, a failed fetchOffsets call (the catch at lines
101-107) skips the group, and otherwise the group's entry, if any, is
appended. The second component of each pair is the oracle outcome of
admin.fetchOffsets for that group. -/
def groupStep (topicName : String) (bounds : List PartitionBounds)
    (acc : List GroupLag) (g : String × Except String (List TopicOffsetData)) :
    List GroupLag :=
  if g.1 = "" then acc
  else
    match g.2 with
    | .error _ => acc
    | .ok offsets =>
      match computeGroupEntry topicName bounds g.1 offsets with
      | some gl => acc ++ [gl]
      | none => acc

/-- The consumerGroupLags array after the whole per-group loop. -/
def computeGroupLags (topicName : String) (bounds : List PartitionBounds)
    (groups : List (String × Except String (List TopicOffsetData))) :
    List GroupLag :=
  groups.foldl (groupStep topicName bounds) []

/-- Math.max over a nonempty list of lags (line 115); the default is
unreachable because the source guards on consumerGroupLags.length > 0. -/
def maxList (l : List Int) (dflt : Int) : Int :=
  match l with
  | [] => dflt
  | x :: xs => xs.foldl max x

/-- The whole lag computation of the GET handler (lines 37-127), taking the
topic name, the outcome of the initial admin.fetchTopicOffsets call, and for
each listed group its id together with the outcome of its fetchOffsets call.
A failure of the initial bounds fetch propagates (the try/catch at lines
128-137 turns it into the 500 response). -/
def computeTopicLag (topicName : String)
    (boundsFetch : Except String (List PartitionBounds))
    (groups : List (String × Except String (List TopicOffsetData))) :
    Except String TopicMetrics :=
  match boundsFetch with
  | .error e => .error e
  | .ok bounds =>
    let tm := totalMessagesOf bounds
    let lags := computeGroupLags topicName bounds groups
    let totalLag := if lags.length > 0 then maxList (lags.map GroupLag.lag) 0 else tm
    .ok { totalMessages := tm, lag := totalLag, consumerGroupLags := lags }

/-- The route-level error wrapping (lines 128-137): a failed computation is
surfaced as a fixed connectivity-style category with the underlying message
as details and HTTP status 500. -/
structure ErrorResponse where
  error : String
  details : String
  status : Nat
deriving DecidableEq, Repr

/-- Result shape of the GET handler: either the metrics or the 500 error. -/
def topicMetricsRoute (topicName : String)
    (boundsFetch : Except String (List PartitionBounds))
    (groups : List (String × Except String (List TopicOffsetData))) :
    Except ErrorResponse TopicMetrics :=
  match computeTopicLag topicName boundsFetch groups with
  | .ok m => .ok m
  | .error msg => .error ⟨"Failed to fetch topic metrics", msg, 500⟩

/-! ## forceRemoveGroup (src/src/app/api/kafka/consumer-groups/route.ts) -/

/-- External side effects performed by forceRemoveGroup, in order. -/
inductive Event where
  | adminConnect
  | describeGroups
  | consumerCreate
  | consumerConnect
  | consumerSubscribe
  | consumerRun
  | consumerStop
  | consumerDisconnect
  | settleWait (ms : Nat)
  | fetchOffsets
  | resetOffsets (topic : String)
  | deleteAttempt (i : Nat)
  | retryWait (ms : Nat)
  | adminDisconnect
deriving DecidableEq, Repr

/-- One element of admin.describeGroups: the group id and its member list
(the source reads only members.length). -/
structure GroupDescription where
  groupId : String
  members : List String
deriving DecidableEq, Repr

/-- Result object returned by forceRemoveGroup on its success paths. -/
structure RemoveResult where
  success : Bool
  message : String
  details : Option String
deriving DecidableEq, Repr

/-- Oracle fixing the outcome of every fallible kafkajs call that
forceRemoveGroup makes. -/
structure AdminOracle where
  connectOk : Bool
  describeResult : Except String (List GroupDescription)
  rebalanceFailStep : Option Nat
  fetchOffsetsResult : Except String (List TopicOffsetData)
  deleteOk : Nat → Bool
  disconnectOk : Bool

/-- The awaited consumer operations of strategy 2 (lines 59-77) that can
throw, in source order. -/
def consumerSteps : List Event :=
  [.consumerConnect, .consumerSubscribe, .consumerRun, .consumerStop,
   .consumerDisconnect]

/-- Strategy 2 (lines 55-81): events of the rebalance nudge. On success the
whole sequence runs with its two waits; if the oracle makes the k-th awaited
consumer operation throw, the stage stops there and the catch swallows the
error. The temporary consumer is created in either case once the stage runs. -/
def rebalanceStage : Option Nat → List Event
  | none =>
    [.consumerCreate, .consumerConnect, .consumerSubscribe, .consumerRun,
     .settleWait 1000, .consumerStop, .consumerDisconnect, .settleWait 2000]
  | some k => .consumerCreate :: consumerSteps.take k

/-- Strategy 3 (lines 83-106): fetch the group's offsets; on success, for
each topic with a nonempty partition list attempt a resetOffsets call. All
errors (fetch or per-topic reset) are swallowed. -/
def resetStage (fetchRes : Except String (List TopicOffsetData)) : List Event :=
  match fetchRes with
  | .error _ => [.fetchOffsets]
  | .ok offsets =>
    .fetchOffsets ::
      (offsets.filter (fun od => od.partitions.length > 0)).map
        (fun od => .resetOffsets od.topic)

/-- Strategy 4 (lines 108-122): the deletion retry loop, counting down fuel
from 3. On a successful deleteGroups call the function returns immediately;
on failure it waits 1000ms unless this was the last attempt. Returns whether
some attempt succeeded, plus the emitted events. -/
def deleteLoop (deleteOk : Nat → Bool) : Nat → Nat → Bool × List Event
  | _, 0 => (false, [])
  | attempt, fuel + 1 =>
    if deleteOk attempt then (true, [.deleteAttempt attempt])
    else
      let rest := deleteLoop deleteOk (attempt + 1) fuel
      if fuel > 0 then
        (rest.1, .deleteAttempt attempt :: .retryWait 1000 :: rest.2)
      else
        (rest.1, .deleteAttempt attempt :: rest.2)

/-- Lines 41-49: needsDeactivation is set exactly when describeGroups
succeeded, the group was found, and its member list is nonempty; a describe
error is swallowed and leaves the flag false. -/
def needsDeactivationOf (describeResult : Except String (List GroupDescription))
    (groupId : String) : Bool :=
  match describeResult with
  | .error _ => false
  | .ok gs =>
    match gs.find? (fun g => g.groupId = groupId) with
    | some g => g.members.length > 0
    | none => false

/-- The try-block body of forceRemoveGroup (lines 37-136): connect, the four
strategies, then the final success / UI-fallback / throw decision. Returns
the result (ok = returned object, error = thrown message) and the event
trace. -/
def forceRemoveGroupBody (o : AdminOracle) (groupId : String) :
    Except String RemoveResult × List Event :=
  if o.connectOk then
    let rebalanceEv :=
      if needsDeactivationOf o.describeResult groupId then
        rebalanceStage o.rebalanceFailStep
      else []
    let del := deleteLoop o.deleteOk 0 3
    let events :=
      Event.adminConnect :: Event.describeGroups ::
        (rebalanceEv ++ resetStage o.fetchOffsetsResult ++ del.2)
    if del.1 then
      (.ok ⟨true,
        "Consumer group \"" ++ groupId ++ "\" force removed successfully",
        none⟩, events)
    else if groupId.startsWith "kafka-ui-" then
      (.ok ⟨true,
        "Consumer group \"" ++ groupId ++ "\" marked as removed",
        some "The group will be cleaned up during the next Kafka server rebalance."⟩,
        events)
    else
      (.error ("Failed to delete group " ++ groupId ++ " after multiple attempts"),
        events)
  else
    (.error "connect failed", [.adminConnect])

/-- The attempted admin.disconnect of the finally block (lines 137-143),
which may itself fail. -/
def attemptDisconnect (ok : Bool) : Except String Unit × List Event :=
  if ok then (.ok (), [.adminDisconnect]) else (.error "disconnect failed", [.adminDisconnect])

/-- forceRemoveGroup with its finally block: the disconnect is attempted on
every exit path and its own outcome is discarded by the inner catch (lines
140-142), so the body's result stands. -/
def forceRemoveGroup (o : AdminOracle) (groupId : String) :
    Except String RemoveResult × List Event :=
  let body := forceRemoveGroupBody o groupId
  let disc := attemptDisconnect o.disconnectOk
  (body.1, body.2 ++ disc.2)

/-- Recognizer for deletion attempts in a trace. -/
def isDeleteAttempt : Event → Bool
  | .deleteAttempt _ => true
  | _ => false

/-- Recognizer for the 1s waits between deletion attempts. -/
def isRetryWait : Event → Bool
  | .retryWait _ => true
  | _ => false

/-- Recognizer for the temporary-consumer operations of the rebalance
nudge. -/
def isConsumerEvent : Event → Bool
  | .consumerCreate => true
  | .consumerConnect => true
  | .consumerSubscribe => true
  | .consumerRun => true
  | .consumerStop => true
  | .consumerDisconnect => true
  | _ => false

/-! ## Messages route (src/src/app/api/kafka/messages/route.ts) -/

/-- The message shape the POST handler builds (offset and timestamp are
decimal strings in the source, handled via BigInt / Number; modelled as
exact integers). -/
structure KMessage where
  offset : Int
  partition : Nat
  key : Option String
  value : Option String
  timestamp : Int
deriving DecidableEq, Repr

/-- The client-held highestOffsets object: partition number to the highest
offset observed, absent for unseen partitions. -/
def HighestOffsetMap : Type := Nat → Option Int

/-- Lines 120-134 of the POST handler: with a highestOffsets entry for the
message's partition, a message whose BigInt offset is less than or equal to
the recorded highest offset is skipped. -/
def shouldSkipMessage (m : HighestOffsetMap) (p : Nat) (offset : Int) : Bool :=
  match m p with
  | some h => offset ≤ h
  | none => false

/-- Lines 172-203: for each partition with a recorded highest offset, the
consumer seeks to BigInt(offset) + 1. -/
def nextSeekOffsets (m : HighestOffsetMap) : HighestOffsetMap :=
  fun p => (m p).map (fun h => h + 1)

/-- Lines 284-290: insertion step of sorting by timestamp descending
(comparator (a, b) => Number(b.timestamp) - Number(a.timestamp)). -/
def insertDesc (m : KMessage) : List KMessage → List KMessage
  | [] => [m]
  | x :: xs =>
    if x.timestamp < m.timestamp then m :: x :: xs else x :: insertDesc m xs

/-- The timestamp-descending sort applied to the collected messages before
truncation. -/
def sortByTimestampDesc : List KMessage → List KMessage
  | [] => []
  | x :: xs => insertDesc x (sortByTimestampDesc xs)

/-- Lines 284-296: the response's message list is the collected messages
sorted by timestamp descending, truncated to the first limit entries when
longer than limit. -/
def pollResponse (collected : List KMessage) (limit : Nat) : List KMessage :=
  let sorted := sortByTimestampDesc collected
  if sorted.length > limit then sorted.take limit else sorted

/-! ## Client-side message buffer (src/src/components/topics/TopicMessages.tsx) -/

/-- The (partition, offset) identity used by the dedup key template string
partition-offset (lines 148-154). -/
def msgKey (m : KMessage) : Nat × Int := (m.partition, m.offset)

/-- Lines 137-143: update of highestOffsets.current for one message — set
when absent, or when the message's offset is strictly greater. -/
def updateHighestOne (m : HighestOffsetMap) (msg : KMessage) : HighestOffsetMap :=
  fun p =>
    if p = msg.partition then
      match m msg.partition with
      | none => some msg.offset
      | some h => if h < msg.offset then some msg.offset else some h
    else m p

/-- The forEach over a fetched batch updating highestOffsets.current. -/
def updateHighest (m : HighestOffsetMap) (msgs : List KMessage) : HighestOffsetMap :=
  msgs.foldl updateHighestOne m

/-- Lines 145-165: the latest + auto-refresh ingest of a nonempty batch into
allMessages.current — dedup against the buffer by (partition, offset),
append the new messages, and when the combined length exceeds the limit keep
slice(-limit); JavaScript's slice(-0) is slice(0), so limit 0 keeps
everything. With no new messages the buffer is untouched. -/
def ingestLatest (limit : Nat) (buffer batch : List KMessage) : List KMessage :=
  let existingKeys := buffer.map msgKey
  let newMessages := batch.filter (fun m => decide (msgKey m ∉ existingKeys))
  if newMessages.length > 0 then
    let combined := buffer ++ newMessages
    if combined.length > limit then
      if limit = 0 then combined else combined.drop (combined.length - limit)
    else combined
  else buffer

/-- Lines 135-175: the whole response-processing block of the query
function. Returns the new allMessages.current buffer and the message list
placed into messagesData (what the UI displays). A nonempty batch is
ingested in latest + auto-refresh mode (and the buffer displayed), or
replaces the buffer wholesale otherwise; an empty batch with auto-refresh on
and a nonempty buffer redisplays the buffer; otherwise the empty batch is
shown and the buffer is left alone. -/
def processPoll (readingMode : String) (autoRefresh : Bool) (limit : Nat)
    (buffer batch : List KMessage) : List KMessage × List KMessage :=
  if 0 < batch.length then
    if readingMode = "latest" ∧ autoRefresh = true then
      let b := ingestLatest limit buffer batch
      (b, b)
    else (batch, batch)
  else if autoRefresh = true ∧ 0 < buffer.length then
    (buffer, buffer)
  else (buffer, batch)

/-! ## Concrete instances used in witnesses and counterexamples -/

/-- A partition counts toward the group's lag exactly when its committed
offset is not the -1 sentinel and a matching partition exists in the topic
offset bounds (the isConsumingTopic conditions of lines 76-91). -/
def consumingFlag (bounds : List PartitionBounds) (pd : PartitionOffsetData) : Bool :=
  if pd.offset = -1 then false
  else (bounds.find? (fun b => b.partition = pd.partition)).isSome

/-- The per-partition lag contribution: max(0, high - committed) for a
counted partition, 0 otherwise. -/
def partitionTerm (bounds : List PartitionBounds) (pd : PartitionOffsetData) : Int :=
  if pd.offset = -1 then 0
  else
    match bounds.find? (fun b => b.partition = pd.partition) with
    | some b => max 0 (b.high - pd.offset)
    | none => 0

/-- Oracle in which every deletion attempt fails and everything else is
benign; used for concrete evaluations of forceRemoveGroup. -/
def allFailOracle : AdminOracle :=
  { connectOk := true, describeResult := .ok [], rebalanceFailStep := none,
    fetchOffsetsResult := .ok [], deleteOk := fun _ => false, disconnectOk := true }

/-- Oracle whose second deletion attempt succeeds; used as the witness
instantiation of the delete-retry theorem. -/
def secondTryOracle : AdminOracle :=
  { connectOk := true, describeResult := .ok [], rebalanceFailStep := none,
    fetchOffsetsResult := .ok [], deleteOk := fun n => decide (n = 1),
    disconnectOk := true }

/-- Oracle whose describe stage finds the group with an empty member list;
witness instantiation for the zero-members theorem. -/
def idleGroupOracle : AdminOracle :=
  { connectOk := true, describeResult := .ok [⟨"g2", []⟩],
    rebalanceFailStep := none, fetchOffsetsResult := .ok [],
    deleteOk := fun _ => false, disconnectOk := true }

/-- Example map recording highest offset 5 on partition 0. -/
def exampleHighestMap : HighestOffsetMap :=
  fun p => if p = 0 then some 5 else none

/-- Example message on partition 0 at offset 5. -/
def exampleMsg : KMessage := ⟨5, 0, none, none, 10⟩

/-- Example message at (partition 0, offset 0). -/
def msgA : KMessage := ⟨0, 0, none, none, 0⟩

/-- Example message at (partition 0, offset 1). -/
def msgB : KMessage := ⟨1, 0, none, none, 0⟩

/-- Example message at (partition 0, offset 2). -/
def msgC : KMessage := ⟨2, 0, none, none, 0⟩

/-! ## Lemmas about the lag computation -/

theorem totalMessages_foldl (l : List PartitionBounds) (a : Int) :
    l.foldl (fun acc p => acc + (p.high - p.low)) a
      = a + (l.map (fun p => p.high - p.low)).sum := by
  induction l generalizing a with
  | nil => simp
  | cons x xs ih => simp [List.foldl_cons, ih, add_assoc]

theorem foldl_max_mem (xs : List Int) (a : Int) : xs.foldl max a ∈ a :: xs := by
  induction xs generalizing a with
  | nil => simp
  | cons y ys ih =>
    have h := ih (max a y)
    simp only [List.foldl_cons]
    rcases List.mem_cons.mp h with h1 | h1
    · rcases max_choice a y with h2 | h2 <;> rw [h1, h2] <;> simp
    · exact List.mem_cons_of_mem _ (List.mem_cons_of_mem _ h1)

theorem le_foldl_max_init (xs : List Int) (a : Int) : a ≤ xs.foldl max a := by
  induction xs generalizing a with
  | nil => simp
  | cons y ys ih =>
    simp only [List.foldl_cons]
    exact le_trans (le_max_left a y) (ih (max a y))

theorem le_foldl_max (xs : List Int) (a y : Int) (h : y ∈ a :: xs) :
    y ≤ xs.foldl max a := by
  induction xs generalizing a with
  | nil => simp at h; simp [h]
  | cons z zs ih =>
    simp only [List.foldl_cons]
    rcases List.mem_cons.mp h with h1 | h1
    · rw [h1]
      exact le_trans (le_max_left a z) (le_foldl_max_init zs (max a z))
    · rcases List.mem_cons.mp h1 with h2 | h2
      · rw [h2]
        exact le_trans (le_max_right a z) (le_foldl_max_init zs (max a z))
      · exact ih (max a z) (List.mem_cons_of_mem _ h2)

theorem groupStep_error (topicName : String) (bounds : List PartitionBounds)
    (acc : List GroupLag) (g : String) (e : String) :
    groupStep topicName bounds acc (g, .error e) = acc := by
  simp [groupStep]

/-- C1: for every topic, the computation returns totalMessages equal to the
sum of (high - low) over all partitions, a topic-level lag equal to the
maximum GroupLag.lag among contributing groups when at least one group
contributes, equal to totalMessages when the contributing-group set is
empty; and on a topic with 3 partitions with bounds (0,100),(0,50),(0,0)
and no consumer groups it returns totalMessages=150, consumerGroupLags=[],
lag=150. -/
theorem computeTopicLag_totals_and_max (topicName : String)
    (bounds : List PartitionBounds)
    (groups : List (String × Except String (List TopicOffsetData))) :
    ∃ m : TopicMetrics,
      computeTopicLag topicName (.ok bounds) groups = .ok m
      ∧ m.totalMessages = (bounds.map (fun p => p.high - p.low)).sum
      ∧ (m.consumerGroupLags ≠ [] →
          m.lag ∈ m.consumerGroupLags.map GroupLag.lag
          ∧ ∀ gl ∈ m.consumerGroupLags, gl.lag ≤ m.lag)
      ∧ (m.consumerGroupLags = [] → m.lag = m.totalMessages)
      ∧ computeTopicLag "topic-a"
          (.ok [⟨0, 0, 100⟩, ⟨1, 0, 50⟩, ⟨2, 0, 0⟩]) []
        = .ok ⟨150, 150, []⟩ := by
  refine ⟨_, rfl, ?_, ?_, ?_, by rfl⟩
  · simp [totalMessagesOf, totalMessages_foldl]
  · intro hne
    simp only at hne ⊢
    cases hl : computeGroupLags topicName bounds groups with
    | nil => simp [hl] at hne
    | cons x xs =>
      have hif : (if (x :: xs).length > 0
            then maxList (List.map GroupLag.lag (x :: xs)) 0
            else totalMessagesOf bounds)
          = maxList (List.map GroupLag.lag (x :: xs)) 0 := by simp
      rw [hif]
      constructor
      · simpa [maxList] using foldl_max_mem (xs.map GroupLag.lag) x.lag
      · intro gl hgl
        have hmem : gl.lag ∈ x.lag :: xs.map GroupLag.lag := by
          rcases List.mem_cons.mp hgl with h1 | h1
          · simp [h1]
          · exact List.mem_cons_of_mem _ (List.mem_map_of_mem GroupLag.lag h1)
        simpa [maxList] using le_foldl_max (xs.map GroupLag.lag) x.lag gl.lag hmem
  · intro he
    simp only at he ⊢
    simp [he]

/-- Witness extracting the concrete 3-partition example from the
totals-and-max theorem. -/
theorem computeTopicLag_totals_and_max_witness :
    computeTopicLag "topic-a" (.ok [⟨0, 0, 100⟩, ⟨1, 0, 50⟩, ⟨2, 0, 0⟩]) []
      = .ok ⟨150, 150, []⟩ :=
  (computeTopicLag_totals_and_max "topic-a"
      [⟨0, 0, 100⟩, ⟨1, 0, 50⟩, ⟨2, 0, 0⟩] []).elim
    (fun _ h => h.2.2.2.2)

/-- C3: a failed per-group committed-offset fetch never aborts the
computation — the failed group is skipped and the result is the same as if
it had not been listed; on a successful bounds fetch the route always
succeeds, and a failed initial bounds fetch is the only failure, surfaced
as the route's connectivity-style 500 error. -/
theorem computeTopicLag_failure_isolation (topicName : String)
    (bounds : List PartitionBounds) (g : String) (e : String)
    (pre post : List (String × Except String (List TopicOffsetData))) :
    computeTopicLag topicName (.ok bounds) (pre ++ (g, .error e) :: post)
      = computeTopicLag topicName (.ok bounds) (pre ++ post)
    ∧ (∀ groups, ∃ m, topicMetricsRoute topicName (.ok bounds) groups = .ok m)
    ∧ (∀ groups err, topicMetricsRoute topicName (.error err) groups
        = .error ⟨"Failed to fetch topic metrics", err, 500⟩) := by
  refine ⟨?_, fun groups => ⟨_, rfl⟩, fun groups err => rfl⟩
  have hl : computeGroupLags topicName bounds (pre ++ (g, .error e) :: post)
      = computeGroupLags topicName bounds (pre ++ post) := by
    simp [computeGroupLags, List.foldl_append, List.foldl_cons, groupStep_error]
  simp [computeTopicLag, hl]

/-! ## Per-group lag characterization (C4) -/

theorem scanPartition_lag (bounds : List PartitionBounds) (st : GroupScan)
    (pd : PartitionOffsetData) :
    (scanPartition bounds st pd).lag = st.lag + partitionTerm bounds pd := by
  by_cases h : pd.offset = -1
  · simp [scanPartition, partitionTerm, h]
  · cases hf : bounds.find? (fun b => b.partition = pd.partition) <;>
      simp [scanPartition, partitionTerm, h, hf]

theorem scanPartition_consuming (bounds : List PartitionBounds) (st : GroupScan)
    (pd : PartitionOffsetData) :
    (scanPartition bounds st pd).isConsuming
      = (st.isConsuming || consumingFlag bounds pd) := by
  by_cases h : pd.offset = -1
  · simp [scanPartition, consumingFlag, h]
  · cases hf : bounds.find? (fun b => b.partition = pd.partition) <;>
      simp [scanPartition, consumingFlag, h, hf]

theorem scan_lag (bounds : List PartitionBounds) (ps : List PartitionOffsetData)
    (st : GroupScan) :
    (ps.foldl (scanPartition bounds) st).lag
      = st.lag + (ps.map (partitionTerm bounds)).sum := by
  induction ps generalizing st with
  | nil => simp
  | cons pd rest ih =>
    simp only [List.foldl_cons, List.map_cons, List.sum_cons]
    rw [ih, scanPartition_lag, add_assoc]

theorem scan_consuming (bounds : List PartitionBounds)
    (ps : List PartitionOffsetData) (st : GroupScan) :
    (ps.foldl (scanPartition bounds) st).isConsuming
      = (st.isConsuming || ps.any (consumingFlag bounds)) := by
  induction ps generalizing st with
  | nil => simp
  | cons pd rest ih =>
    simp only [List.foldl_cons, List.any_cons]
    rw [ih, scanPartition_consuming, Bool.or_assoc]

theorem partitionTerm_nonneg (bounds : List PartitionBounds)
    (pd : PartitionOffsetData) : 0 ≤ partitionTerm bounds pd := by
  by_cases h : pd.offset = -1
  · simp [partitionTerm, h]
  · cases hf : bounds.find? (fun b => b.partition = pd.partition) <;>
      simp [partitionTerm, h, hf]

theorem partitionTerm_zero_of_not_counted (bounds : List PartitionBounds)
    (pd : PartitionOffsetData) (h : consumingFlag bounds pd = false) :
    partitionTerm bounds pd = 0 := by
  by_cases h1 : pd.offset = -1
  · simp [partitionTerm, h1]
  · cases hf : bounds.find? (fun b => b.partition = pd.partition) with
    | none => simp [partitionTerm, h1, hf]
    | some b => simp [consumingFlag, h1, hf] at h

theorem sum_terms_filter (bounds : List PartitionBounds)
    (ps : List PartitionOffsetData) :
    ((ps.filter (consumingFlag bounds)).map (partitionTerm bounds)).sum
      = (ps.map (partitionTerm bounds)).sum := by
  induction ps with
  | nil => simp
  | cons pd rest ih =>
    by_cases h : consumingFlag bounds pd
    · simp [List.filter_cons, h, ih]
    · have h0 : consumingFlag bounds pd = false := by
        simpa using h
      simp [List.filter_cons, h0, ih,
        partitionTerm_zero_of_not_counted bounds pd h0]

/-- C4: a group's lag for a topic is the sum, over partitions with a
non-sentinel committed offset and a matching partition in the topic's
bounds, of max(0, high - committedOffset); every per-partition term is
nonnegative (so the lag is, even when committed > high); and a group whose
committed offset is the -1 sentinel on every partition is excluded entirely
from consumerGroupLags rather than included at lag 0. -/
theorem groupLag_sum_nonneg_sentinel (topicName : String)
    (bounds : List PartitionBounds) (groupId : String)
    (offsets : List TopicOffsetData) (od : TopicOffsetData)
    (hfind : offsets.find? (fun t => t.topic = topicName) = some od) :
    (∀ gl, computeGroupEntry topicName bounds groupId offsets = some gl →
        gl.lag = ((od.partitions.filter (consumingFlag bounds)).map
            (partitionTerm bounds)).sum
        ∧ 0 ≤ gl.lag)
    ∧ (∀ pd ∈ od.partitions, 0 ≤ partitionTerm bounds pd)
    ∧ ((∀ pd ∈ od.partitions, pd.offset = -1) →
        computeGroupEntry topicName bounds groupId offsets = none
        ∧ ∀ pre post,
          computeGroupLags topicName bounds
              (pre ++ (groupId, .ok offsets) :: post)
            = computeGroupLags topicName bounds (pre ++ post)) := by
  refine ⟨?_, fun pd _ => partitionTerm_nonneg bounds pd, ?_⟩
  · intro gl hgl
    simp only [computeGroupEntry, hfind] at hgl
    set st := od.partitions.foldl (scanPartition bounds) ⟨0, false⟩ with hst
    by_cases hc : st.isConsuming
    · simp only [hc, if_true] at hgl
      obtain rfl := Option.some.inj hgl
      have h1 : st.lag = (od.partitions.map (partitionTerm bounds)).sum := by
        rw [hst, scan_lag]; simp
      constructor
      · show st.lag = _
        rw [h1, sum_terms_filter]
      · show (0 : Int) ≤ st.lag
        rw [h1]
        exact List.sum_nonneg (by
          intro x hx
          rcases List.mem_map.mp hx with ⟨pd, _, hpd⟩
          exact hpd ▸ partitionTerm_nonneg bounds pd)
    · simp [hc] at hgl
  · intro hall
    have hflag : od.partitions.any (consumingFlag bounds) = false := by
      rw [List.any_eq_false]
      intro pd hpd
      simp [consumingFlag, hall pd hpd]
    have hconsume :
        (od.partitions.foldl (scanPartition bounds) ⟨0, false⟩).isConsuming = false := by
      rw [scan_consuming, hflag]
      rfl
    have hnone : computeGroupEntry topicName bounds groupId offsets = none := by
      simp [computeGroupEntry, hfind, hconsume]
    refine ⟨hnone, ?_⟩
    intro pre post
    have hstep : ∀ acc, groupStep topicName bounds acc (groupId, .ok offsets) = acc := by
      intro acc
      simp [groupStep, hnone]
    simp [computeGroupLags, List.foldl_append, List.foldl_cons, hstep]

/-- Witness for the per-group lag theorem: a group whose only committed
offset is the -1 sentinel is excluded from the lag results. -/
theorem groupLag_sum_nonneg_sentinel_witness :
    computeGroupEntry "t" [⟨0, 0, 10⟩] "g" [⟨"t", [⟨0, -1⟩]⟩] = none := by
  have h := groupLag_sum_nonneg_sentinel "t" [⟨0, 0, 10⟩] "g"
    [⟨"t", [⟨0, -1⟩]⟩] ⟨"t", [⟨0, -1⟩]⟩ rfl
  exact (h.2.2 (by decide)).1

/-! ## Lemmas about forceRemoveGroup -/

theorem deleteLoop_three (d : Nat → Bool) :
    deleteLoop d 0 3 =
      if d 0 then (true, [Event.deleteAttempt 0])
      else if d 1 then
        (true, [Event.deleteAttempt 0, Event.retryWait 1000, Event.deleteAttempt 1])
      else if d 2 then
        (true, [Event.deleteAttempt 0, Event.retryWait 1000, Event.deleteAttempt 1,
                Event.retryWait 1000, Event.deleteAttempt 2])
      else
        (false, [Event.deleteAttempt 0, Event.retryWait 1000, Event.deleteAttempt 1,
                 Event.retryWait 1000, Event.deleteAttempt 2]) := by
  by_cases h0 : d 0 <;> by_cases h1 : d 1 <;> by_cases h2 : d 2 <;>
    simp [deleteLoop, h0, h1, h2]

theorem attemptDisconnect_events (b : Bool) :
    (attemptDisconnect b).2 = [Event.adminDisconnect] := by
  unfold attemptDisconnect
  split <;> rfl

theorem forceRemoveGroupBody_events (o : AdminOracle) (g : String)
    (hc : o.connectOk = true) :
    (forceRemoveGroupBody o g).2
      = Event.adminConnect :: Event.describeGroups ::
          ((if needsDeactivationOf o.describeResult g then
              rebalanceStage o.rebalanceFailStep
            else []) ++ resetStage o.fetchOffsetsResult
            ++ (deleteLoop o.deleteOk 0 3).2) := by
  simp only [forceRemoveGroupBody, hc, if_true]
  split
  · rfl
  · split <;> rfl

theorem forceRemoveGroupBody_result (o : AdminOracle) (g : String)
    (hc : o.connectOk = true) :
    (forceRemoveGroupBody o g).1
      = (if (deleteLoop o.deleteOk 0 3).1 then
          .ok ⟨true,
            "Consumer group \"" ++ g ++ "\" force removed successfully", none⟩
        else if g.startsWith "kafka-ui-" then
          .ok ⟨true, "Consumer group \"" ++ g ++ "\" marked as removed",
            some "The group will be cleaned up during the next Kafka server rebalance."⟩
        else
          .error ("Failed to delete group " ++ g ++ " after multiple attempts")) := by
  simp only [forceRemoveGroupBody, hc, if_true]
  split
  · next h => simp [h]
  · next h =>
    split <;> next h2 => simp [h, h2]

theorem rebalanceStage_countP_zero (p : Event → Bool) (s : Option Nat)
    (h1 : (rebalanceStage none).countP p = 0)
    (h2 : p Event.consumerCreate = false)
    (h3 : consumerSteps.countP p = 0) :
    (rebalanceStage s).countP p = 0 := by
  cases s with
  | none => exact h1
  | some k =>
    have hle : (consumerSteps.take k).countP p ≤ consumerSteps.countP p :=
      List.Sublist.countP_le p (List.take_sublist k consumerSteps)
    have h0 : (consumerSteps.take k).countP p = 0 :=
      Nat.le_zero.mp (le_trans hle (le_of_eq h3))
    simp [rebalanceStage, List.countP_cons, h2, h0]

theorem resetStage_countP_zero (p : Event → Bool)
    (r : Except String (List TopicOffsetData))
    (hf : p Event.fetchOffsets = false)
    (hr : ∀ t, p (Event.resetOffsets t) = false) :
    (resetStage r).countP p = 0 := by
  cases r with
  | error e => simp [resetStage, List.countP_cons, hf]
  | ok offsets =>
    have hmap : ((offsets.filter (fun od => od.partitions.length > 0)).map
        (fun od => Event.resetOffsets od.topic)).countP p = 0 := by
      rw [List.countP_eq_zero]
      intro e he
      rcases List.mem_map.mp he with ⟨od, _, rfl⟩
      simp [hr]
    simp [resetStage, List.countP_cons, hf, hmap]

theorem deleteLoop_countP_zero (p : Event → Bool) (d : Nat → Bool)
    (hd : ∀ i, p (Event.deleteAttempt i) = false)
    (hw : p (Event.retryWait 1000) = false) :
    ∀ fuel attempt, ((deleteLoop d attempt fuel).2).countP p = 0 := by
  intro fuel
  induction fuel with
  | zero => intro attempt; simp [deleteLoop]
  | succ n ih =>
    intro attempt
    by_cases h : d attempt <;> by_cases hn : n > 0 <;>
      simp [deleteLoop, h, hn, List.countP_cons, hd, hw, ih]

theorem forceRemove_trace_countP (o : AdminOracle) (g : String) (p : Event → Bool)
    (hc : o.connectOk = true)
    (h1 : p Event.adminConnect = false) (h2 : p Event.describeGroups = false)
    (h3 : p Event.adminDisconnect = false)
    (hreb : ∀ s, (rebalanceStage s).countP p = 0)
    (hres : ∀ r, (resetStage r).countP p = 0) :
    (forceRemoveGroup o g).2.countP p = ((deleteLoop o.deleteOk 0 3).2).countP p := by
  show ((forceRemoveGroupBody o g).2 ++ (attemptDisconnect o.disconnectOk).2).countP p = _
  rw [forceRemoveGroupBody_events o g hc, attemptDisconnect_events]
  by_cases hn : needsDeactivationOf o.describeResult g <;>
    simp [List.countP_append, List.countP_cons, h1, h2, h3, hn,
      hreb o.rebalanceFailStep, hres o.fetchOffsetsResult]

/-- C2 counterexample: on a non-UI-managed group whose three deletion
attempts all fail, forceRemoveGroup throws an error that names the group
but contains no digit at all, hence does not name the attempt count — the
claim's "error naming the group and the attempt count" fails on the code. -/
theorem forceRemoveGroup_error_has_no_attempt_count :
    (forceRemoveGroup allFailOracle "my-group").1
      = .error "Failed to delete group my-group after multiple attempts"
    ∧ "Failed to delete group my-group after multiple attempts".data.all
        (fun c => !c.isDigit) = true := by
  constructor
  · rfl
  · decide

/-- C2 (amended): deletion is attempted at most 3 times with a ~1s wait
between attempts; the first successful attempt returns success:true
immediately with no further attempts; if all 3 attempts fail and the group
is UI-managed (kafka-ui- prefix) the result is still success:true with the
"marked as removed" message; if all 3 attempts fail and the group is not
UI-managed, an error is thrown whose message names the group and says
"after multiple attempts" (the numeric attempt count is not part of the
message). -/
theorem forceRemoveGroup_delete_retry (o : AdminOracle) (g : String)
    (hc : o.connectOk = true) :
    (forceRemoveGroup o g).2.countP isDeleteAttempt ≤ 3
    ∧ (∀ k, k < 3 → o.deleteOk k = true → (∀ j, j < k → o.deleteOk j = false) →
        (forceRemoveGroup o g).1
            = .ok ⟨true,
                "Consumer group \"" ++ g ++ "\" force removed successfully", none⟩
          ∧ (forceRemoveGroup o g).2.countP isDeleteAttempt = k + 1
          ∧ (forceRemoveGroup o g).2.countP isRetryWait = k)
    ∧ ((∀ j, j < 3 → o.deleteOk j = false) → g.startsWith "kafka-ui-" = true →
        (forceRemoveGroup o g).1
          = .ok ⟨true, "Consumer group \"" ++ g ++ "\" marked as removed",
              some "The group will be cleaned up during the next Kafka server rebalance."⟩)
    ∧ ((∀ j, j < 3 → o.deleteOk j = false) → g.startsWith "kafka-ui-" = false →
        (forceRemoveGroup o g).1
          = .error ("Failed to delete group " ++ g ++ " after multiple attempts")) := by
  have hda : (forceRemoveGroup o g).2.countP isDeleteAttempt
      = ((deleteLoop o.deleteOk 0 3).2).countP isDeleteAttempt :=
    forceRemove_trace_countP o g isDeleteAttempt hc rfl rfl rfl
      (fun s => rebalanceStage_countP_zero isDeleteAttempt s rfl rfl rfl)
      (fun r => resetStage_countP_zero isDeleteAttempt r rfl (fun t => rfl))
  have hrw : (forceRemoveGroup o g).2.countP isRetryWait
      = ((deleteLoop o.deleteOk 0 3).2).countP isRetryWait :=
    forceRemove_trace_countP o g isRetryWait hc rfl rfl rfl
      (fun s => rebalanceStage_countP_zero isRetryWait s rfl rfl rfl)
      (fun r => resetStage_countP_zero isRetryWait r rfl (fun t => rfl))
  have hres : (forceRemoveGroup o g).1 = (forceRemoveGroupBody o g).1 := rfl
  refine ⟨?_, ?_, ?_, ?_⟩
  · rw [hda, deleteLoop_three]
    by_cases h0 : o.deleteOk 0 <;> by_cases h1 : o.deleteOk 1 <;>
      by_cases h2 : o.deleteOk 2 <;> simp [h0, h1, h2, List.countP_cons, isDeleteAttempt]
  · intro k hk hks hkf
    rw [hres, forceRemoveGroupBody_result o g hc, hda, hrw, deleteLoop_three]
    interval_cases k
    · simp [hks, List.countP_cons, isDeleteAttempt, isRetryWait]
    · have h0 : o.deleteOk 0 = false := hkf 0 (by omega)
      simp [h0, hks, List.countP_cons, isDeleteAttempt, isRetryWait]
    · have h0 : o.deleteOk 0 = false := hkf 0 (by omega)
      have h1 : o.deleteOk 1 = false := hkf 1 (by omega)
      simp [h0, h1, hks, List.countP_cons, isDeleteAttempt, isRetryWait]
  · intro hall hui
    rw [hres, forceRemoveGroupBody_result o g hc, deleteLoop_three]
    simp [hall 0 (by omega), hall 1 (by omega), hall 2 (by omega), hui]
  · intro hall hui
    rw [hres, forceRemoveGroupBody_result o g hc, deleteLoop_three]
    simp [hall 0 (by omega), hall 1 (by omega), hall 2 (by omega), hui]

/-- Witness for the delete-retry theorem: with the first attempt failing
and the second succeeding, the result is immediate success and exactly two
deletion attempts with one wait appear in the trace. -/
theorem forceRemoveGroup_delete_retry_witness :
    (forceRemoveGroup secondTryOracle "g1").1
        = .ok ⟨true,
            "Consumer group \"" ++ "g1" ++ "\" force removed successfully", none⟩
      ∧ (forceRemoveGroup secondTryOracle "g1").2.countP isDeleteAttempt = 1 + 1
      ∧ (forceRemoveGroup secondTryOracle "g1").2.countP isRetryWait = 1 := by
  have h := (forceRemoveGroup_delete_retry secondTryOracle "g1" rfl).2.1 1
    (by omega) (by decide)
    (by intro j hj; interval_cases j; decide)
  exact h

/-- C7: the admin connection is disconnected on every exit path of
forceRemoveGroup (the trace always ends with the disconnect), and the
outcome of the disconnect itself never changes the result established
before it. -/
theorem forceRemoveGroup_always_disconnects (o : AdminOracle) (g : String) :
    (forceRemoveGroup o g).2.getLast? = some Event.adminDisconnect
    ∧ (∀ b : Bool,
        (forceRemoveGroup { o with disconnectOk := b } g).1
          = (forceRemoveGroup o g).1) := by
  constructor
  · show ((forceRemoveGroupBody o g).2
        ++ (attemptDisconnect o.disconnectOk).2).getLast? = _
    rw [attemptDisconnect_events]
    exact List.getLast?_concat _
  · intro b
    rfl

theorem fetchOffsets_mem_resetStage (r : Except String (List TopicOffsetData)) :
    Event.fetchOffsets ∈ resetStage r := by
  cases r <;> simp [resetStage]

theorem not_mem_of_countP_zero (p : Event → Bool) (l : List Event) (e : Event)
    (h : l.countP p = 0) (hp : p e = true) : e ∉ l := by
  intro hmem
  exact absurd hp (by simpa using List.countP_eq_zero.mp h e hmem)

theorem consumerCreate_mem_needsDeactivation (o : AdminOracle) (g : String)
    (hmem : Event.consumerCreate ∈ (forceRemoveGroup o g).2) :
    needsDeactivationOf o.describeResult g = true := by
  have htr : (forceRemoveGroup o g).2
      = (forceRemoveGroupBody o g).2 ++ [Event.adminDisconnect] := by
    show (forceRemoveGroupBody o g).2 ++ (attemptDisconnect o.disconnectOk).2 = _
    rw [attemptDisconnect_events]
  rw [htr] at hmem
  by_cases hc : o.connectOk = true
  · rw [forceRemoveGroupBody_events o g hc] at hmem
    have hreset : Event.consumerCreate ∉ resetStage o.fetchOffsetsResult :=
      not_mem_of_countP_zero isConsumerEvent _ _
        (resetStage_countP_zero isConsumerEvent _ rfl (fun t => rfl)) rfl
    have hdel : Event.consumerCreate ∉ ((deleteLoop o.deleteOk 0 3).2) :=
      not_mem_of_countP_zero isConsumerEvent _ _
        (deleteLoop_countP_zero isConsumerEvent o.deleteOk (fun i => rfl) rfl 3 0) rfl
    by_cases hn : needsDeactivationOf o.describeResult g
    · exact hn
    · have hnf : needsDeactivationOf o.describeResult g = false := by
        simpa using hn
      rw [hnf] at hmem
      simp at hmem
      rcases hmem with h | h
      · exact absurd h hreset
      · exact absurd h hdel
  · have hcf : o.connectOk = false := by
      cases hcc : o.connectOk
      · rfl
      · exact absurd hcc hc
    have hbody : (forceRemoveGroupBody o g).2 = [Event.adminConnect] := by
      simp [forceRemoveGroupBody, hcf]
    rw [hbody] at hmem
    simp at hmem

/-- C8: when the describe stage reports zero active members for the group,
the rebalance-nudge stage is skipped entirely — no temporary-consumer
operation appears in the trace — while the offset-reset fetch and at least
one deletion attempt still happen; and in general a temporary consumer is
created only when describe succeeded and found the group with one or more
active members. -/
theorem forceRemoveGroup_zero_members_skips_nudge (o : AdminOracle) (g : String)
    (gs : List GroupDescription) (d : GroupDescription)
    (hc : o.connectOk = true)
    (h1 : o.describeResult = .ok gs)
    (h2 : gs.find? (fun x => x.groupId = g) = some d)
    (h3 : d.members = []) :
    (forceRemoveGroup o g).2.countP isConsumerEvent = 0
    ∧ Event.fetchOffsets ∈ (forceRemoveGroup o g).2
    ∧ 1 ≤ (forceRemoveGroup o g).2.countP isDeleteAttempt
    ∧ (∀ (o2 : AdminOracle) (g2 : String),
        Event.consumerCreate ∈ (forceRemoveGroup o2 g2).2 →
        ∃ gs2 d2, o2.describeResult = .ok gs2
          ∧ gs2.find? (fun x => x.groupId = g2) = some d2
          ∧ d2.members ≠ []) := by
  have hn : needsDeactivationOf o.describeResult g = false := by
    simp [needsDeactivationOf, h1, h2, h3]
  have htr : (forceRemoveGroup o g).2
      = (forceRemoveGroupBody o g).2 ++ [Event.adminDisconnect] := by
    show (forceRemoveGroupBody o g).2 ++ (attemptDisconnect o.disconnectOk).2 = _
    rw [attemptDisconnect_events]
  refine ⟨?_, ?_, ?_, ?_⟩
  · rw [htr, forceRemoveGroupBody_events o g hc, hn]
    have hres : (resetStage o.fetchOffsetsResult).countP isConsumerEvent = 0 :=
      resetStage_countP_zero isConsumerEvent _ rfl (fun t => rfl)
    have hdel : ((deleteLoop o.deleteOk 0 3).2).countP isConsumerEvent = 0 :=
      deleteLoop_countP_zero isConsumerEvent o.deleteOk (fun i => rfl) rfl 3 0
    simp [List.countP_append, List.countP_cons, hres, hdel, isConsumerEvent]
  · rw [htr, forceRemoveGroupBody_events o g hc]
    simp [fetchOffsets_mem_resetStage o.fetchOffsetsResult]
  · have hda : (forceRemoveGroup o g).2.countP isDeleteAttempt
        = ((deleteLoop o.deleteOk 0 3).2).countP isDeleteAttempt :=
      forceRemove_trace_countP o g isDeleteAttempt hc rfl rfl rfl
        (fun s => rebalanceStage_countP_zero isDeleteAttempt s rfl rfl rfl)
        (fun r => resetStage_countP_zero isDeleteAttempt r rfl (fun t => rfl))
    rw [hda, deleteLoop_three]
    by_cases h0 : o.deleteOk 0 <;> by_cases hd1 : o.deleteOk 1 <;>
      by_cases hd2 : o.deleteOk 2 <;>
      simp [h0, hd1, hd2, List.countP_cons, isDeleteAttempt]
  · intro o2 g2 hmem
    have hneed := consumerCreate_mem_needsDeactivation o2 g2 hmem
    unfold needsDeactivationOf at hneed
    cases hd : o2.describeResult with
    | error e =>
      simp only [hd] at hneed
      exact absurd hneed (by decide)
    | ok gs2 =>
      simp only [hd] at hneed
      cases hf : gs2.find? (fun x => x.groupId = g2) with
      | none =>
        simp only [hf] at hneed
        exact absurd hneed (by decide)
      | some d2 =>
        simp only [hf] at hneed
        refine ⟨gs2, d2, rfl, hf, ?_⟩
        have hlen : 0 < d2.members.length := by simpa using hneed
        exact List.ne_nil_of_length_pos hlen

/-- Witness for the zero-members theorem at a concrete oracle. -/
theorem forceRemoveGroup_zero_members_witness :
    (forceRemoveGroup idleGroupOracle "g2").2.countP isConsumerEvent = 0
    ∧ Event.fetchOffsets ∈ (forceRemoveGroup idleGroupOracle "g2").2
    ∧ 1 ≤ (forceRemoveGroup idleGroupOracle "g2").2.countP isDeleteAttempt := by
  have h := forceRemoveGroup_zero_members_skips_nudge idleGroupOracle "g2"
    [⟨"g2", []⟩] ⟨"g2", []⟩ rfl rfl (by decide) rfl
  exact ⟨h.1, h.2.1, h.2.2.1⟩

/-! ## Lemmas about the message window tracking (C5) -/

theorem updateHighestOne_preserves (m : HighestOffsetMap) (msg : KMessage)
    (p : Nat) (h : Int) (hm : m p = some h) :
    ∃ h2, updateHighestOne m msg p = some h2 ∧ h ≤ h2 := by
  unfold updateHighestOne
  by_cases hp : p = msg.partition
  · rw [if_pos hp, ← hp, hm]
    by_cases hlt : h < msg.offset
    · exact ⟨msg.offset, by simp [hlt], le_of_lt hlt⟩
    · exact ⟨h, by simp [hlt], le_refl h⟩
  · exact ⟨h, by rw [if_neg hp]; exact hm, le_refl h⟩

theorem updateHighest_preserves (msgs : List KMessage) :
    ∀ (m : HighestOffsetMap) (p : Nat) (h : Int), m p = some h →
      ∃ h2, updateHighest m msgs p = some h2 ∧ h ≤ h2 := by
  induction msgs with
  | nil => exact fun m p h hm => ⟨h, hm, le_refl h⟩
  | cons x xs ih =>
    intro m p h hm
    obtain ⟨h1, hm1, hle1⟩ := updateHighestOne_preserves m x p h hm
    obtain ⟨h2, hm2, hle2⟩ := ih (updateHighestOne m x) p h1 hm1
    exact ⟨h2, hm2, le_trans hle1 hle2⟩

theorem updateHighestOne_self (m : HighestOffsetMap) (msg : KMessage) :
    ∃ h, updateHighestOne m msg msg.partition = some h ∧ msg.offset ≤ h := by
  unfold updateHighestOne
  rw [if_pos rfl]
  cases hm : m msg.partition with
  | none => exact ⟨msg.offset, rfl, le_refl _⟩
  | some h0 =>
    by_cases hlt : h0 < msg.offset
    · exact ⟨msg.offset, by simp [hlt], le_refl _⟩
    · exact ⟨h0, by simp [hlt], le_of_not_lt hlt⟩

theorem updateHighest_covers (msgs : List KMessage) (msg : KMessage)
    (hmem : msg ∈ msgs) :
    ∀ m : HighestOffsetMap,
      ∃ h, updateHighest m msgs msg.partition = some h ∧ msg.offset ≤ h := by
  induction msgs with
  | nil => exact absurd hmem (List.not_mem_nil msg)
  | cons x xs ih =>
    intro m
    rcases List.mem_cons.mp hmem with h1 | h1
    · subst h1
      obtain ⟨h0, hm0, hle0⟩ := updateHighestOne_self m msg
      obtain ⟨h2, hm2, hle2⟩ :=
        updateHighest_preserves xs (updateHighestOne m msg) msg.partition h0 hm0
      exact ⟨h2, hm2, le_trans hle0 hle2⟩
    · exact ih h1 (updateHighestOne m x)

/-- C5: for every partition with an observed message the next-poll seek
offset is exactly highest+1 (never highest, since h+1 is a different
offset), and after the client records a surfaced batch in its
HighestOffsetMap, every message of that batch is filtered out by the
server-side skip test on the next poll, so an already-surfaced message is
never re-surfaced. Offsets are exact integers (BigInt in the source). -/
theorem nextSeek_and_noResurface :
    (∀ (m : HighestOffsetMap) (p : Nat) (h : Int), m p = some h →
        nextSeekOffsets m p = some (h + 1) ∧ h + 1 ≠ h)
    ∧ (∀ (m : HighestOffsetMap) (batch : List KMessage) (msg : KMessage),
        msg ∈ batch →
        shouldSkipMessage (updateHighest m batch) msg.partition msg.offset
          = true) := by
  constructor
  · intro m p h hm
    refine ⟨by simp [nextSeekOffsets, hm], by omega⟩
  · intro m batch msg hmem
    obtain ⟨h, hm, hle⟩ := updateHighest_covers batch msg hmem m
    simp [shouldSkipMessage, hm, hle]

/-- Witness for the seek/no-resurface theorem at concrete inputs. -/
theorem nextSeek_and_noResurface_witness :
    nextSeekOffsets exampleHighestMap 0 = some 6
    ∧ shouldSkipMessage (updateHighest (fun _ => none) [exampleMsg])
        exampleMsg.partition exampleMsg.offset = true := by
  have h := nextSeek_and_noResurface
  constructor
  · have h1 := (h.1 exampleHighestMap 0 5 rfl).1
    simpa using h1
  · exact h.2 (fun _ => none) [exampleMsg] exampleMsg (by simp)

/-! ## Lemmas about the poll response ordering (C10) -/

theorem insertDesc_perm (m : KMessage) (l : List KMessage) :
    (insertDesc m l).Perm (m :: l) := by
  induction l with
  | nil => exact List.Perm.refl _
  | cons x xs ih =>
    by_cases h : x.timestamp < m.timestamp
    · simp [insertDesc, h]
    · simp only [insertDesc, h, if_false]
      exact List.Perm.trans (List.Perm.cons x ih) (List.Perm.swap m x xs)

theorem insertDesc_pairwise (m : KMessage) (l : List KMessage)
    (h : l.Pairwise (fun a b => b.timestamp ≤ a.timestamp)) :
    (insertDesc m l).Pairwise (fun a b => b.timestamp ≤ a.timestamp) := by
  induction l with
  | nil => simp [insertDesc]
  | cons x xs ih =>
    obtain ⟨hx, hxs⟩ := List.pairwise_cons.mp h
    by_cases hc : x.timestamp < m.timestamp
    · simp only [insertDesc, hc, if_true]
      refine List.pairwise_cons.mpr ⟨?_, h⟩
      intro y hy
      rcases List.mem_cons.mp hy with h1 | h1
      · rw [h1]; exact le_of_lt hc
      · exact le_trans (hx y h1) (le_of_lt hc)
    · simp only [insertDesc, hc, if_false]
      refine List.pairwise_cons.mpr ⟨?_, ih hxs⟩
      intro y hy
      have hy2 : y ∈ m :: xs := (insertDesc_perm m xs).mem_iff.mp hy
      rcases List.mem_cons.mp hy2 with h1 | h1
      · rw [h1]; exact le_of_not_lt hc
      · exact hx y h1

theorem sortByTimestampDesc_perm (l : List KMessage) :
    (sortByTimestampDesc l).Perm l := by
  induction l with
  | nil => exact List.Perm.refl _
  | cons x xs ih =>
    exact List.Perm.trans (insertDesc_perm x (sortByTimestampDesc xs))
      (List.Perm.cons x ih)

theorem sortByTimestampDesc_sorted (l : List KMessage) :
    (sortByTimestampDesc l).Pairwise (fun a b => b.timestamp ≤ a.timestamp) := by
  induction l with
  | nil => simp [sortByTimestampDesc]
  | cons x xs ih => exact insertDesc_pairwise x (sortByTimestampDesc xs) ih

/-- C10: every successful poll response holds at most limit messages, and
the collected messages are sorted by timestamp in descending order before
truncation — the wire-level ordering is timestamp order (of the same
collected messages, as the permutation shows), then a take of the first
limit entries. -/
theorem pollResponse_sorted_truncated (collected : List KMessage) (limit : Nat) :
    (pollResponse collected limit).length ≤ limit
    ∧ (sortByTimestampDesc collected).Pairwise
        (fun a b => b.timestamp ≤ a.timestamp)
    ∧ (sortByTimestampDesc collected).Perm collected
    ∧ pollResponse collected limit = (sortByTimestampDesc collected).take limit
    ∧ (pollResponse collected limit).Pairwise
        (fun a b => b.timestamp ≤ a.timestamp) := by
  have hsorted := sortByTimestampDesc_sorted collected
  have heq : pollResponse collected limit
      = (sortByTimestampDesc collected).take limit := by
    unfold pollResponse
    by_cases h : (sortByTimestampDesc collected).length > limit
    · simp [h]
    · have hle : (sortByTimestampDesc collected).length ≤ limit := by omega
      simp [h, List.take_of_length_le hle]
  refine ⟨?_, hsorted, sortByTimestampDesc_perm collected, heq, ?_⟩
  · rw [heq]
    exact List.length_take_le limit (sortByTimestampDesc collected)
  · rw [heq]
    exact List.Pairwise.sublist (List.take_sublist limit _) hsorted

/-! ## Lemmas about the client-side accumulated buffer (C6, C9) -/

theorem ingestLatest_no_new (limit : Nat) (buffer2 batch : List KMessage)
    (h : ∀ m ∈ batch, msgKey m ∈ buffer2.map msgKey) :
    ingestLatest limit buffer2 batch = buffer2 := by
  have hfil : batch.filter (fun m => decide (msgKey m ∉ buffer2.map msgKey)) = [] := by
    rw [List.filter_eq_nil_iff]
    intro a ha
    simp [h a ha]
  simp only [ingestLatest]
  rw [hfil]
  simp

theorem ingestLatest_covers (limit : Nat) (buffer batch : List KMessage)
    (hlen : batch.length ≤ limit)
    (hdisj : ∀ m ∈ batch, msgKey m ∉ buffer.map msgKey) (msg : KMessage)
    (hmem : msg ∈ batch) :
    msgKey msg ∈ (ingestLatest limit buffer batch).map msgKey := by
  have hpos : 0 < batch.length := List.length_pos.mpr
    (by rintro rfl; exact absurd hmem (List.not_mem_nil msg))
  have hfil : batch.filter (fun m => decide (msgKey m ∉ buffer.map msgKey)) = batch :=
    List.filter_eq_self.mpr (fun a ha => by simp [hdisj a ha])
  have hlim : ¬ limit = 0 := by omega
  simp only [ingestLatest]
  rw [hfil, if_pos hpos]
  by_cases hcomb : (buffer ++ batch).length > limit
  · rw [if_pos hcomb, if_neg hlim]
    have hk : (buffer ++ batch).length - limit ≤ buffer.length := by
      rw [List.length_append]
      omega
    rw [List.drop_append_of_le_length hk, List.map_append]
    exact List.mem_append_right _ (List.mem_map_of_mem msgKey hmem)
  · rw [if_neg hcomb, List.map_append]
    exact List.mem_append_right _ (List.mem_map_of_mem msgKey hmem)

/-- C6 counterexample: ingesting the same batch twice is not idempotent in
general. First scenario — limit 1, empty buffer, batch of two fresh
messages: truncation drops the first batch message, and the second
ingestion re-adds it, changing the buffer. Second scenario — limit 2,
buffer [A,B], batch [A,C] (within the limit): truncation drops A, which the
second ingestion re-adds. -/
theorem ingestLatest_not_idempotent :
    (ingestLatest 1 (ingestLatest 1 [] [msgA, msgB]) [msgA, msgB]
        ≠ ingestLatest 1 [] [msgA, msgB]
      ∧ msgA ∈ ingestLatest 1 (ingestLatest 1 [] [msgA, msgB]) [msgA, msgB]
      ∧ msgA ∉ ingestLatest 1 [] [msgA, msgB])
    ∧ ingestLatest 2 (ingestLatest 2 [msgA, msgB] [msgA, msgC]) [msgA, msgC]
        ≠ ingestLatest 2 [msgA, msgB] [msgA, msgC] := by
  decide

/-- C6 (amended): ingesting the same batch twice is idempotent provided the
batch fits within the requested limit and shares no (partition, offset)
identity with the pre-existing buffer — then every batch message survives
the first ingestion's truncation, the second ingestion's dedup finds no new
messages, and the buffer is unchanged. -/
theorem ingestLatest_idempotent (limit : Nat) (buffer batch : List KMessage)
    (hlen : batch.length ≤ limit)
    (hdisj : ∀ m ∈ batch, msgKey m ∉ buffer.map msgKey) :
    ingestLatest limit (ingestLatest limit buffer batch) batch
      = ingestLatest limit buffer batch :=
  ingestLatest_no_new limit (ingestLatest limit buffer batch) batch
    (fun m hm => ingestLatest_covers limit buffer batch hlen hdisj m hm)

/-- Witness for the amended idempotence theorem at concrete inputs. -/
theorem ingestLatest_idempotent_witness :
    ingestLatest 2 (ingestLatest 2 [msgA] [msgB, msgC]) [msgB, msgC]
      = ingestLatest 2 [msgA] [msgB, msgC] :=
  ingestLatest_idempotent 2 [msgA] [msgB, msgC] (by decide) (by decide)

/-- C9 counterexample: with auto-refresh off, a zero-message poll leaves
the buffer intact but displays the empty result, not the buffer — the
claim as stated (without the auto-refresh condition) fails. -/
theorem processPoll_empty_without_autorefresh :
    (processPoll "latest" false 100 [msgA] []).2 = []
    ∧ (processPoll "latest" false 100 [msgA] []).1 = [msgA]
    ∧ ([msgA] : List KMessage) ≠ [] := by
  decide

/-- C9 (amended): in auto-refresh mode, a zero-message poll with a nonempty
accumulated buffer keeps the buffer unchanged and displays it instead of an
empty result; the buffer itself is untouched by a zero-message poll in
every mode. -/
theorem processPoll_quiet_keeps_buffer (readingMode : String) (limit : Nat)
    (buffer : List KMessage) (hb : buffer ≠ []) :
    processPoll readingMode true limit buffer [] = (buffer, buffer)
    ∧ ∀ ar : Bool, (processPoll readingMode ar limit buffer []).1 = buffer := by
  have hpos : 0 < buffer.length := List.length_pos.mpr hb
  constructor
  · simp [processPoll, hpos]
  · intro ar
    cases ar <;> simp [processPoll, hpos]

/-- Witness for the quiet-period theorem at concrete inputs. -/
theorem processPoll_quiet_keeps_buffer_witness :
    processPoll "latest" true 100 [msgB] [] = ([msgB], [msgB]) :=
  (processPoll_quiet_keeps_buffer "latest" 100 [msgB] (by decide)).1

end KafkaUI
